import Mathlib

/-
Verification of the command-construction, input-sanitization and
process-execution pipeline of the gemini-bridge-mcp server
(src/index.ts).  Strings are embedded as `List Char`; every definition
below is translated from the TypeScript source unless its doc comment
says it follows the specification text instead.
-/

namespace GeminiBridge

/-- The backslash character. -/
def bslash : Char := Char.ofNat 92

/-- The double-quote character. -/
def dquote : Char := Char.ofNat 34

/-- The dollar-sign character. -/
def dollar : Char := Char.ofNat 36

/-- The backtick character. -/
def btick : Char := Char.ofNat 96

/-- Global single-character regex replacement, the semantics of the
JavaScript `input.replace(/c/g, r)` calls in `sanitizeInput`:
every occurrence of `c` is replaced by the list `r`. -/
def replaceChar (c : Char) (r : List Char) : List Char → List Char
  | [] => []
  | x :: xs => (if x = c then r else [x]) ++ replaceChar c r xs

/-- `sanitizeInput` from src/index.ts lines 38-44: escape backslash
first, then double-quote, then dollar, then backtick, each as a global
single-character replacement, applied in that order. -/
def sanitizeInput (s : List Char) : List Char :=
  replaceChar btick [bslash, btick]
    (replaceChar dollar [bslash, dollar]
      (replaceChar dquote [bslash, dquote]
        (replaceChar bslash [bslash, bslash] s)))

/-- The four characters the sanitizer escapes. -/
def isSpecial (c : Char) : Bool :=
  c = bslash || c = dquote || c = dollar || c = btick

/-- Character-wise escaping: a special character receives a backslash
prefix, every other character is kept unchanged. -/
def escChar (c : Char) : List Char :=
  if isSpecial c then [bslash, c] else [c]

/-- Sanitizer as described by the specification (section 4.2): each of
the four shell metacharacters is escaped by a literal single-character
replacement; the backslash-first order makes the net effect a
character-wise escape map. -/
def sanitizeSpec (s : List Char) : List Char :=
  s.flatMap escChar

/-- Inverse of the sanitizer: a backslash followed by one of the four
escaped characters decodes to that character; everything else is kept. -/
def unescape : List Char → List Char
  | [] => []
  | [x] => [x]
  | x :: y :: rest =>
    if x = bslash ∧ isSpecial y = true then y :: unescape rest
    else x :: unescape (y :: rest)

lemma replaceChar_append (c : Char) (r a b : List Char) :
    replaceChar c r (a ++ b) = replaceChar c r a ++ replaceChar c r b := by
  induction a with
  | nil => rfl
  | cons x xs ih => simp [replaceChar, ih, List.append_assoc]

lemma bslash_special : isSpecial bslash = true := by decide

lemma dquote_special : isSpecial dquote = true := by decide

lemma dollar_special : isSpecial dollar = true := by decide

lemma btick_special : isSpecial btick = true := by decide

/-- The four sequential replacements of the source sanitizer compute the
character-wise escaping described by the spec. -/
lemma sanitizeInput_eq_spec (s : List Char) : sanitizeInput s = sanitizeSpec s := by
  induction s with
  | nil => rfl
  | cons c cs ih =>
    have hstep : sanitizeInput (c :: cs) =
        sanitizeInput [c] ++ sanitizeInput cs := by
      show sanitizeInput ([c] ++ cs) = _
      simp only [sanitizeInput, replaceChar_append]
    have hhead : sanitizeInput [c] = escChar c := by
      by_cases h1 : c = bslash
      · subst h1; decide
      · by_cases h2 : c = dquote
        · subst h2; decide
        · by_cases h3 : c = dollar
          · subst h3; decide
          · by_cases h4 : c = btick
            · subst h4; decide
            · simp [sanitizeInput, replaceChar, escChar, isSpecial, h1, h2, h3, h4]
    rw [hstep, hhead, ih]
    simp [sanitizeSpec]

lemma unescape_esc (y : Char) (t : List Char) (h : isSpecial y = true) :
    unescape (bslash :: y :: t) = y :: unescape t := by
  simp [unescape, h]

lemma unescape_cons (x : Char) (t : List Char) (h : ¬ x = bslash) :
    unescape (x :: t) = x :: unescape t := by
  cases t with
  | nil => rfl
  | cons y ys => simp [unescape, h]

lemma unescape_sanitizeSpec (s : List Char) : unescape (sanitizeSpec s) = s := by
  induction s with
  | nil => rfl
  | cons c cs ih =>
    have hcons : sanitizeSpec (c :: cs) = escChar c ++ sanitizeSpec cs := by
      simp [sanitizeSpec]
    rw [hcons]
    by_cases h : isSpecial c = true
    · simp only [escChar, h, if_pos]
      rw [List.cons_append, List.cons_append, List.nil_append,
        unescape_esc c _ h, ih]
    · have hc : ¬ c = bslash := by
        intro hb; exact h (by rw [hb]; exact bslash_special)
      simp only [escChar, if_neg h]
      rw [List.cons_append, List.nil_append, unescape_cons c _ hc, ih]

/-- Claim C1: for every prompt string, including every combination of
backslash, double-quote, dollar and backtick characters, applying the
sanitizer and then the inverse unescaping yields exactly the original
text; consequently the sanitizer is injective. -/
theorem sanitize_roundtrip :
    (∀ s : List Char, unescape (sanitizeInput s) = s) ∧
      Function.Injective sanitizeInput := by
  have h : ∀ s : List Char, unescape (sanitizeInput s) = s := by
    intro s
    rw [sanitizeInput_eq_spec, unescape_sanitizeSpec]
  exact ⟨h, fun a b hab => by
    have ha := h a
    rw [hab, h b] at ha
    exact ha.symm⟩

/-- Tool-call arguments as they reach the handler at runtime.  The
TypeScript handler only casts the raw argument object
(`args as unknown as GeminiExecuteParams`), so every field may be
absent, and the string-typed fields may hold any string at runtime. -/
structure GeminiExecuteParams where
  prompt : Option (List Char)
  model : Option (List Char)
  approvalMode : Option (List Char)
  outputFormat : Option (List Char)
  sandbox : Option Bool
  workingDirectory : Option (List Char)
  includeDirectories : Option (List (List Char))
  debug : Option Bool

/-- The binary token. -/
def geminiTok : List Char := ['g', 'e', 'm', 'i', 'n', 'i']

/-- The prompt flag followed by its separating space. -/
def pFlagTok : List Char := ['-', 'p', ' ']

/-- The model flag followed by its separating space. -/
def mFlagTok : List Char := ['-', 'm', ' ']

/-- The approval-mode flag followed by its separating space. -/
def amFlagTok : List Char :=
  ['-', '-', 'a', 'p', 'p', 'r', 'o', 'v', 'a', 'l', '-', 'm', 'o', 'd', 'e', ' ']

/-- The output-format flag followed by its separating space. -/
def ofFlagTok : List Char :=
  ['-', '-', 'o', 'u', 't', 'p', 'u', 't', '-', 'f', 'o', 'r', 'm', 'a', 't', ' ']

/-- The sandbox flag. -/
def sTok : List Char := ['-', 's']

/-- The include-directories flag followed by its separating space. -/
def idFlagTok : List Char :=
  ['-', '-', 'i', 'n', 'c', 'l', 'u', 'd', 'e', '-', 'd', 'i', 'r', 'e', 'c',
   't', 'o', 'r', 'i', 'e', 's', ' ']

/-- The debug flag. -/
def dTok : List Char := ['-', 'd']

/-- The default model identifier substituted when the caller omits `model`. -/
def defaultModelTok : List Char :=
  ['g', 'e', 'm', 'i', 'n', 'i', '-', '3', '-', 'p', 'r', 'o', '-',
   'p', 'r', 'e', 'v', 'i', 'e', 'w']

/-- The default approval mode. -/
def yoloTok : List Char := ['y', 'o', 'l', 'o']

/-- The `text` output format (the default). -/
def textTok : List Char := ['t', 'e', 'x', 't']

/-- The `json` output format. -/
def jsonTok : List Char := ['j', 's', 'o', 'n']

/-- The remaining enumerated identifiers of the model domain. -/
def flash25Tok : List Char := "gemini-2.5-flash".data

/-- Model identifier `gemini-2.5-pro`. -/
def pro25Tok : List Char := "gemini-2.5-pro".data

/-- Model identifier `gemini-3-flash-preview`. -/
def flash3Tok : List Char := "gemini-3-flash-preview".data

/-- Approval mode `default`. -/
def defaultModeTok : List Char := "default".data

/-- Approval mode `auto_edit`. -/
def autoEditTok : List Char := "auto_edit".data

/-- The token `-p "<sanitized prompt>"` pushed at src/index.ts line 65. -/
def pPartOf (s : List Char) : List Char :=
  pFlagTok ++ [dquote] ++ sanitizeInput s ++ [dquote]

/-- `buildCommand` from src/index.ts lines 51-91, before the final
`parts.join(" ")`: the ordered list of pushed parts.  Field defaults
mirror the JavaScript destructuring defaults (applied only when a field
is absent), `if (model)` is JavaScript string truthiness (non-empty),
and `includeDirectories?.length` skips both an absent and an empty
sequence. -/
def buildParts (p : GeminiExecuteParams) : List (List Char) :=
  let model := p.model.getD defaultModelTok
  let approvalMode := p.approvalMode.getD yoloTok
  let outputFormat := p.outputFormat.getD textTok
  let sandbox := p.sandbox.getD false
  let debug := p.debug.getD false
  [geminiTok]
    ++ [pPartOf (p.prompt.getD [])]
    ++ (if model.isEmpty then [] else [mFlagTok ++ model])
    ++ [amFlagTok ++ approvalMode]
    ++ (if outputFormat = textTok then [] else [ofFlagTok ++ outputFormat])
    ++ (if sandbox then [sTok] else [])
    ++ (match p.includeDirectories with
        | none => []
        | some dirs =>
          if dirs.isEmpty then []
          else [idFlagTok ++ List.intercalate [','] (dirs.map sanitizeInput)])
    ++ (if debug then [dTok] else [])

/-- The rendered command line: `parts.join(" ")`. -/
def buildCommand (p : GeminiExecuteParams) : List Char :=
  List.intercalate [' '] (buildParts p)

/-- Does `t` start with the pattern `pat`? -/
def startsWith (t pat : List Char) : Bool :=
  match pat with
  | [] => true
  | b :: bs =>
    match t with
    | [] => false
    | a :: as => a = b && startsWith as bs
termination_by structural pat

/-- Classification of a rendered part by the flag it carries, following
the fixed construction order of the builder. -/
def rank (t : List Char) : Nat :=
  if startsWith t geminiTok then 0
  else if startsWith t pFlagTok then 1
  else if startsWith t mFlagTok then 2
  else if startsWith t amFlagTok then 3
  else if startsWith t ofFlagTok then 4
  else if t = sTok then 5
  else if startsWith t idFlagTok then 6
  else if t = dTok then 7
  else 8

@[simp] lemma rank_gemini : rank geminiTok = 0 := rfl

@[simp] lemma rank_pPart (s : List Char) : rank (pPartOf s) = 1 := rfl

@[simp] lemma rank_mPart (m : List Char) : rank (mFlagTok ++ m) = 2 := rfl

@[simp] lemma rank_amPart (a : List Char) : rank (amFlagTok ++ a) = 3 := rfl

@[simp] lemma rank_ofPart (f : List Char) : rank (ofFlagTok ++ f) = 4 := rfl

@[simp] lemma rank_sTok : rank sTok = 5 := rfl

@[simp] lemma rank_idPart (d : List Char) : rank (idFlagTok ++ d) = 6 := rfl

@[simp] lemma rank_dTok : rank dTok = 7 := rfl

/-- ASCII whitespace, the characters relevant to JavaScript trimming
of the strings that occur here. -/
def isWS (c : Char) : Bool :=
  c = ' ' || c = Char.ofNat 9 || c = Char.ofNat 10 || c = Char.ofNat 13 ||
    c = Char.ofNat 11 || c = Char.ofNat 12

/-- JavaScript `String.prototype.trim`: removes leading and trailing
whitespace. -/
def trimJS (s : List Char) : List Char :=
  ((s.dropWhile isWS).reverse.dropWhile isWS).reverse

/-- Validity of an ExecuteRequest in the sense of the specification's
data model: prompt present with non-empty trim, every enumerated field
absent or inside its domain, and at most five include directories. -/
def validReq (p : GeminiExecuteParams) : Bool :=
  (match p.prompt with
    | some s => !(trimJS s).isEmpty
    | none => false) &&
  (match p.model with
    | some m =>
      (m == flash25Tok) || (m == pro25Tok) || (m == flash3Tok) ||
        (m == defaultModelTok)
    | none => true) &&
  (match p.approvalMode with
    | some a => (a == defaultModeTok) || (a == autoEditTok) || (a == yoloTok)
    | none => true) &&
  (match p.outputFormat with
    | some f => (f == textTok) || (f == jsonTok)
    | none => true) &&
  (match p.includeDirectories with
    | some ds => ds.length ≤ 5
    | none => true)

lemma validReq_model (p : GeminiExecuteParams) (h : validReq p = true) :
    (p.model.getD defaultModelTok).isEmpty = false := by
  rcases p with ⟨pr, mo, am, fo, sb, wd, dirs, db⟩
  rcases mo with _ | m
  · rfl
  · simp only [validReq, Bool.and_eq_true, Bool.or_eq_true, beq_iff_eq] at h
    obtain ⟨⟨⟨⟨_, hm⟩, _⟩, _⟩, _⟩ := h
    simp only [Option.getD_some]
    rcases hm with ((hm | hm) | hm) | hm <;> subst hm <;> decide

lemma validReq_fmt (p : GeminiExecuteParams) (h : validReq p = true) :
    p.outputFormat.getD textTok = textTok ∨
      (p.outputFormat.getD textTok = jsonTok ∧ p.outputFormat = some jsonTok) := by
  rcases p with ⟨pr, mo, am, fo, sb, wd, dirs, db⟩
  rcases fo with _ | f
  · exact Or.inl rfl
  · simp only [validReq, Bool.and_eq_true, Bool.or_eq_true, beq_iff_eq] at h
    obtain ⟨⟨⟨⟨_, _⟩, _⟩, hf⟩, _⟩ := h
    rcases hf with hf | hf <;> subst hf
    · exact Or.inl rfl
    · exact Or.inr ⟨rfl, rfl⟩

lemma json_ne_text : ¬ (jsonTok = textTok) := by decide

/-- A fully defaulted valid request with prompt `hi`. -/
def exampleReq : GeminiExecuteParams :=
  ⟨some ['h', 'i'], none, none, none, none, none, none, none⟩

/-- Claim C4: for every valid ExecuteRequest the rendered command line
begins with the binary token `gemini`, contains exactly one prompt flag
and exactly one approval-mode flag, and its parts appear in the fixed
construction order (their flag classification is strictly increasing). -/
theorem buildCommand_structure (p : GeminiExecuteParams)
    (h : validReq p = true) :
    (buildParts p).head? = some geminiTok ∧
      (buildParts p).countP (fun t => rank t == 1) = 1 ∧
      (buildParts p).countP (fun t => rank t == 3) = 1 ∧
      List.Chain' (· < ·) ((buildParts p).map rank) := by
  have hm := validReq_model p h
  have hf := validReq_fmt p h
  rcases p with ⟨pr, mo, am, fo, sb, wd, dirs, db⟩
  have hM : (mo.getD defaultModelTok).isEmpty = false := hm
  have hF : fo.getD textTok = textTok ∨ fo.getD textTok = jsonTok := by
    rcases hf with hf | ⟨hf, _⟩
    · exact Or.inl hf
    · exact Or.inr hf
  rcases hF with hF | hF <;>
    cases hsb : sb.getD false <;>
    cases hdb : db.getD false <;>
    rcases dirs with _ | l <;>
    first
      | (cases hl : l.isEmpty <;>
          simp [buildParts, hM, hF, hsb, hdb, hl, json_ne_text,
            List.countP_cons, List.countP_nil])
      | simp [buildParts, hM, hF, hsb, hdb, json_ne_text,
          List.countP_cons, List.countP_nil]

/-- Witness for C4 at a concrete valid request. -/
theorem buildCommand_structure_witness :
    validReq exampleReq = true ∧
      ((buildParts exampleReq).head? = some geminiTok ∧
        (buildParts exampleReq).countP (fun t => rank t == 1) = 1 ∧
        (buildParts exampleReq).countP (fun t => rank t == 3) = 1 ∧
        List.Chain' (· < ·) ((buildParts exampleReq).map rank)) :=
  ⟨by decide, buildCommand_structure exampleReq (by decide)⟩

lemma ne_of_sw (pat : List Char) {a b : List Char}
    (h1 : startsWith a pat = true)
    (h2 : startsWith b pat = false) : a = b ↔ False := by
  constructor
  · intro he
    subst he
    rw [h1] at h2
    cases h2
  · exact False.elim

@[simp] lemma sw_gem_of : startsWith geminiTok ofFlagTok = false := rfl

@[simp] lemma sw_pPart_of (s : List Char) :
    startsWith (pPartOf s) ofFlagTok = false := rfl

@[simp] lemma sw_mPart_of (m : List Char) :
    startsWith (mFlagTok ++ m) ofFlagTok = false := rfl

@[simp] lemma sw_amPart_of (a : List Char) :
    startsWith (amFlagTok ++ a) ofFlagTok = false := rfl

@[simp] lemma sw_ofPart_of (f : List Char) :
    startsWith (ofFlagTok ++ f) ofFlagTok = true := rfl

@[simp] lemma sw_sTok_of : startsWith sTok ofFlagTok = false := rfl

@[simp] lemma sw_idPart_of (d : List Char) :
    startsWith (idFlagTok ++ d) ofFlagTok = false := rfl

@[simp] lemma sw_dTok_of : startsWith dTok ofFlagTok = false := rfl

@[simp] lemma sw_gem_id : startsWith geminiTok idFlagTok = false := rfl

@[simp] lemma sw_pPart_id (s : List Char) :
    startsWith (pPartOf s) idFlagTok = false := rfl

@[simp] lemma sw_mPart_id (m : List Char) :
    startsWith (mFlagTok ++ m) idFlagTok = false := rfl

@[simp] lemma sw_amPart_id (a : List Char) :
    startsWith (amFlagTok ++ a) idFlagTok = false := rfl

@[simp] lemma sw_ofPart_id (f : List Char) :
    startsWith (ofFlagTok ++ f) idFlagTok = false := rfl

@[simp] lemma sw_sTok_id : startsWith sTok idFlagTok = false := rfl

@[simp] lemma sw_idPart_id (d : List Char) :
    startsWith (idFlagTok ++ d) idFlagTok = true := rfl

@[simp] lemma sw_dTok_id : startsWith dTok idFlagTok = false := rfl

@[simp] lemma sTok_ne_gem : (sTok = geminiTok) ↔ False := by decide

@[simp] lemma sTok_ne_pPart (s : List Char) : (sTok = pPartOf s) ↔ False :=
  ne_of_sw sTok rfl rfl

@[simp] lemma sTok_ne_mPart (m : List Char) : (sTok = mFlagTok ++ m) ↔ False :=
  ne_of_sw sTok rfl rfl

@[simp] lemma sTok_ne_amPart (a : List Char) : (sTok = amFlagTok ++ a) ↔ False :=
  ne_of_sw sTok rfl rfl

@[simp] lemma sTok_ne_ofPart (f : List Char) : (sTok = ofFlagTok ++ f) ↔ False :=
  ne_of_sw sTok rfl rfl

@[simp] lemma sTok_ne_idPart (d : List Char) : (sTok = idFlagTok ++ d) ↔ False :=
  ne_of_sw sTok rfl rfl

@[simp] lemma sTok_ne_dTok : (sTok = dTok) ↔ False := by decide

@[simp] lemma dTok_ne_gem : (dTok = geminiTok) ↔ False := by decide

@[simp] lemma dTok_ne_pPart (s : List Char) : (dTok = pPartOf s) ↔ False :=
  ne_of_sw dTok rfl rfl

@[simp] lemma dTok_ne_mPart (m : List Char) : (dTok = mFlagTok ++ m) ↔ False :=
  ne_of_sw dTok rfl rfl

@[simp] lemma dTok_ne_amPart (a : List Char) : (dTok = amFlagTok ++ a) ↔ False :=
  ne_of_sw dTok rfl rfl

@[simp] lemma dTok_ne_ofPart (f : List Char) : (dTok = ofFlagTok ++ f) ↔ False :=
  ne_of_sw dTok rfl rfl

@[simp] lemma dTok_ne_idPart (d : List Char) : (dTok = idFlagTok ++ d) ↔ False :=
  ne_of_sw dTok rfl rfl

@[simp] lemma dTok_ne_sTok : (dTok = sTok) ↔ False := by decide

@[simp] lemma idPart_ne_gem (d : List Char) :
    (idFlagTok ++ d = geminiTok) ↔ False :=
  ne_of_sw idFlagTok rfl rfl

@[simp] lemma idPart_ne_pPart (d s : List Char) :
    (idFlagTok ++ d = pPartOf s) ↔ False :=
  ne_of_sw idFlagTok rfl rfl

@[simp] lemma idPart_ne_mPart (d m : List Char) :
    (idFlagTok ++ d = mFlagTok ++ m) ↔ False :=
  ne_of_sw idFlagTok rfl rfl

@[simp] lemma idPart_ne_amPart (d a : List Char) :
    (idFlagTok ++ d = amFlagTok ++ a) ↔ False :=
  ne_of_sw idFlagTok rfl rfl

@[simp] lemma idPart_ne_ofPart (d f : List Char) :
    (idFlagTok ++ d = ofFlagTok ++ f) ↔ False :=
  ne_of_sw idFlagTok rfl rfl

@[simp] lemma idPart_ne_sTok (d : List Char) : (idFlagTok ++ d = sTok) ↔ False :=
  ne_of_sw idFlagTok rfl rfl

@[simp] lemma idPart_ne_dTok (d : List Char) : (idFlagTok ++ d = dTok) ↔ False :=
  ne_of_sw idFlagTok rfl rfl

@[simp] lemma text_ne_json : (textTok = jsonTok) ↔ False := by decide

lemma validReq_fmtDomain (p : GeminiExecuteParams) (h : validReq p = true) :
    ∀ f, p.outputFormat = some f → f = textTok ∨ f = jsonTok := by
  rcases p with ⟨pr, mo, am, fo, sb, wd, dirs, db⟩
  intro f hf
  simp only at hf
  subst hf
  simp only [validReq, Bool.and_eq_true, Bool.or_eq_true, beq_iff_eq] at h
  exact h.1.2

/-- A valid request exercising every optional flag. -/
def exampleReq2 : GeminiExecuteParams :=
  ⟨some ['h', 'i'], some pro25Tok, some autoEditTok, some jsonTok,
    some true, none, some [['/', 't', 'm', 'p']], some true⟩

/-- Claim C5: for every valid ExecuteRequest, the output-format flag
appears iff `outputFormat` is `json`, the sandbox flag iff `sandbox` is
true, the debug flag iff `debug` is true, and the include-directories
flag iff `includeDirectories` is non-empty, its value being the
sanitized paths joined by commas. -/
theorem optional_flags_iff (p : GeminiExecuteParams)
    (h : validReq p = true) :
    ((∃ t ∈ buildParts p, startsWith t ofFlagTok = true) ↔
        p.outputFormat = some jsonTok) ∧
      (sTok ∈ buildParts p ↔ p.sandbox = some true) ∧
      (dTok ∈ buildParts p ↔ p.debug = some true) ∧
      (∀ l, p.includeDirectories = some l →
        ((idFlagTok ++ List.intercalate [','] (l.map sanitizeInput)) ∈
            buildParts p ↔ l.isEmpty = false)) ∧
      (p.includeDirectories = none →
        ∀ t ∈ buildParts p, startsWith t idFlagTok = false) := by
  have hM := validReq_model p h
  have hFd := validReq_fmtDomain p h
  rcases p with ⟨pr, mo, am, fo, sb, wd, dirs, db⟩
  have hM : (mo.getD defaultModelTok).isEmpty = false := hM
  refine ⟨?_, ?_, ?_, ?_, ?_⟩
  · rcases fo with _ | f
    · rcases dirs with _ | l <;>
        first
          | (cases hl : l.isEmpty <;> simp [buildParts, hM, hl] <;> aesop)
          | (simp [buildParts, hM] <;> aesop)
    · rcases hFd f rfl with hf | hf <;> subst hf <;>
        rcases dirs with _ | l <;>
        first
          | (cases hl : l.isEmpty <;>
              simp [buildParts, hM, hl, text_ne_json, json_ne_text] <;> aesop)
          | (simp [buildParts, hM, text_ne_json, json_ne_text] <;> aesop)
  · rcases sb with _ | b <;>
      [skip; cases b] <;>
      rcases dirs with _ | l <;>
      first
        | (cases hl : l.isEmpty <;> simp [buildParts, hM, hl] <;> aesop)
        | (simp [buildParts, hM] <;> aesop)
  · rcases db with _ | b <;>
      [skip; cases b] <;>
      rcases dirs with _ | l <;>
      first
        | (cases hl : l.isEmpty <;> simp [buildParts, hM, hl] <;> aesop)
        | (simp [buildParts, hM] <;> aesop)
  · intro l hl
    simp only at hl
    subst hl
    cases hle : l.isEmpty <;> simp [buildParts, hM, hle] <;> aesop
  · intro hdirs
    simp only at hdirs
    subst hdirs
    simp [buildParts, hM] <;> aesop

/-- Witness for C5 at a concrete valid request exercising every
optional flag. -/
theorem optional_flags_iff_witness :
    validReq exampleReq2 = true ∧
      (((∃ t ∈ buildParts exampleReq2, startsWith t ofFlagTok = true) ↔
          exampleReq2.outputFormat = some jsonTok) ∧
        (sTok ∈ buildParts exampleReq2 ↔ exampleReq2.sandbox = some true) ∧
        (dTok ∈ buildParts exampleReq2 ↔ exampleReq2.debug = some true) ∧
        (∀ l, exampleReq2.includeDirectories = some l →
          ((idFlagTok ++ List.intercalate [','] (l.map sanitizeInput)) ∈
              buildParts exampleReq2 ↔ l.isEmpty = false)) ∧
        (exampleReq2.includeDirectories = none →
          ∀ t ∈ buildParts exampleReq2, startsWith t idFlagTok = false)) :=
  ⟨by decide, optional_flags_iff exampleReq2 (by decide)⟩

/-- Claim C10: for every valid ExecuteRequest the rendered command line
contains exactly one model flag, and when the caller omits `model` the
default identifier is substituted and emitted. -/
theorem model_flag_always_present (p : GeminiExecuteParams)
    (h : validReq p = true) :
    (buildParts p).countP (fun t => rank t == 2) = 1 ∧
      (p.model = none → (mFlagTok ++ defaultModelTok) ∈ buildParts p) := by
  have hM := validReq_model p h
  have hf := validReq_fmt p h
  rcases p with ⟨pr, mo, am, fo, sb, wd, dirs, db⟩
  have hM : (mo.getD defaultModelTok).isEmpty = false := hM
  have hF : fo.getD textTok = textTok ∨ fo.getD textTok = jsonTok := by
    rcases hf with hf | ⟨hf, _⟩
    · exact Or.inl hf
    · exact Or.inr hf
  constructor
  · rcases hF with hF | hF <;>
      cases hsb : sb.getD false <;>
      cases hdb : db.getD false <;>
      rcases dirs with _ | l <;>
      first
        | (cases hl : l.isEmpty <;>
            simp [buildParts, hM, hF, hsb, hdb, hl, json_ne_text,
              List.countP_cons, List.countP_nil])
        | simp [buildParts, hM, hF, hsb, hdb, json_ne_text,
            List.countP_cons, List.countP_nil]
  · intro hmo
    simp only at hmo
    subst hmo
    simp [buildParts]
    exact Or.inr (Or.inr (Or.inl (by decide)))

/-- Witness for C10 at a concrete valid request omitting the model. -/
theorem model_flag_always_present_witness :
    validReq exampleReq = true ∧
      ((buildParts exampleReq).countP (fun t => rank t == 2) = 1 ∧
        (exampleReq.model = none →
          (mFlagTok ++ defaultModelTok) ∈ buildParts exampleReq)) :=
  ⟨by decide, model_flag_always_present exampleReq (by decide)⟩

/-- Command construction as described by specification section 4.2:
binary token, prompt flag with sanitized quote-wrapped prompt, model
flag with the (defaulted) identifier emitted unsanitized, approval-mode
flag with the enum literal, output-format flag only when not `text`,
sandbox flag only when true, include-directories flag only when the
sequence is non-empty with the sanitized paths joined by a comma and no
spaces, debug flag only when true.  The sanitizer is the character-wise
escape map `sanitizeSpec`; it touches only the prompt and the
directory paths. -/
def specParts (p : GeminiExecuteParams) : List (List Char) :=
  [geminiTok]
    ++ [pFlagTok ++ [dquote] ++ sanitizeSpec (p.prompt.getD []) ++ [dquote]]
    ++ [mFlagTok ++ p.model.getD defaultModelTok]
    ++ [amFlagTok ++ p.approvalMode.getD yoloTok]
    ++ (if p.outputFormat.getD textTok = textTok then []
        else [ofFlagTok ++ p.outputFormat.getD textTok])
    ++ (if p.sandbox.getD false then [sTok] else [])
    ++ (match p.includeDirectories with
        | none => []
        | some ds =>
          if ds.isEmpty then []
          else [idFlagTok ++ List.intercalate [','] (ds.map sanitizeSpec)])
    ++ (if p.debug.getD false then [dTok] else [])

/-- Claim C2: the sanitizer applied by the command builder is exactly the
four-step ordered literal replacement; in the rendered command it is
applied to the prompt and to every include directory, and never to the
model, approval-mode, output-format, sandbox or debug tokens: for every
valid request the parts built by the source builder coincide with the
spec-described construction. -/
theorem buildParts_eq_specParts (p : GeminiExecuteParams)
    (h : validReq p = true) : buildParts p = specParts p := by
  have hM := validReq_model p h
  have hsan : sanitizeInput = sanitizeSpec := funext sanitizeInput_eq_spec
  rcases p with ⟨pr, mo, am, fo, sb, wd, dirs, db⟩
  have hM : (mo.getD defaultModelTok).isEmpty = false := hM
  simp only [buildParts, specParts, pPartOf, hsan, hM]
  simp

/-- Witness for C2 at a concrete valid request. -/
theorem buildParts_eq_specParts_witness :
    validReq exampleReq2 = true ∧
      buildParts exampleReq2 = specParts exampleReq2 :=
  ⟨by decide, buildParts_eq_specParts exampleReq2 (by decide)⟩

/-- The validation failures raised by the tool-call handler before any
command is built. -/
inductive ToolError where
  | missingPrompt
  | tooManyDirectories
  deriving DecidableEq

/-- The handler's prompt test `!params.prompt?.trim()`: true when the
prompt is absent, or when its JavaScript trim is empty. -/
def promptMissing (p : GeminiExecuteParams) : Bool :=
  match p.prompt with
  | none => true
  | some s => (trimJS s).isEmpty

/-- The tool-call handler's validation and command construction,
src/index.ts lines 168-177: reject a missing/blank prompt, then more
than five include directories, then build the command line. -/
def handleRequest (p : GeminiExecuteParams) : Except ToolError (List Char) :=
  if promptMissing p then Except.error ToolError.missingPrompt
  else if 5 < (p.includeDirectories.getD []).length then
    Except.error ToolError.tooManyDirectories
  else Except.ok (buildCommand p)

/-- Claim C6: a request whose prompt is absent, empty, or
whitespace-only fails with `MissingPrompt` regardless of every other
field, and no command line is built. -/
theorem missing_prompt_rejected (p : GeminiExecuteParams)
    (h : p.prompt = none ∨ ∃ s, p.prompt = some s ∧ ∀ c ∈ s, isWS c = true) :
    handleRequest p = Except.error ToolError.missingPrompt := by
  have hpm : promptMissing p = true := by
    rcases h with h | ⟨s, hs, hws⟩
    · simp [promptMissing, h]
    · have : s.dropWhile isWS = [] := List.dropWhile_eq_nil_iff.mpr hws
      simp [promptMissing, hs, trimJS, this]
  simp [handleRequest, hpm]

/-- Witness for C6 at a whitespace-only prompt. -/
theorem missing_prompt_rejected_witness :
    handleRequest ⟨some [' ', ' '], none, none, none, none, none, none, none⟩ =
      Except.error ToolError.missingPrompt :=
  missing_prompt_rejected _ (Or.inr ⟨[' ', ' '], rfl, by decide⟩)

/-- Claim C7: with a valid prompt, six or more include directories are
rejected with `TooManyDirectories` before any command line is built,
while at most five directories pass this check (the result is then
either `MissingPrompt` or a built command, never `TooManyDirectories`). -/
theorem too_many_directories (p : GeminiExecuteParams) :
    (promptMissing p = false →
      ∀ l, p.includeDirectories = some l → 6 ≤ l.length →
        handleRequest p = Except.error ToolError.tooManyDirectories) ∧
      (∀ l, p.includeDirectories = some l → l.length ≤ 5 →
        handleRequest p = Except.error ToolError.missingPrompt ∨
          handleRequest p = Except.ok (buildCommand p)) := by
  constructor
  · intro hp l hl hlen
    have h6 : 5 < (p.includeDirectories.getD []).length := by
      rw [hl]; simpa using hlen
    simp [handleRequest, hp, h6]
  · intro l hl hlen
    cases hpm : promptMissing p
    · have h5 : ¬ 5 < (p.includeDirectories.getD []).length := by
        rw [hl]; simpa using hlen
      right
      simp [handleRequest, hpm, h5]
    · left
      simp [handleRequest, hpm]

/-- A request with a valid prompt and six include directories. -/
def sixDirReq : GeminiExecuteParams :=
  ⟨some ['h', 'i'], none, none, none, none, none,
    some [[], [], [], [], [], []], none⟩

/-- Witness for C7: a valid prompt with six directories is rejected. -/
theorem too_many_directories_witness :
    handleRequest sixDirReq = Except.error ToolError.tooManyDirectories :=
  (too_many_directories sixDirReq).1 (by decide) [[], [], [], [], [], []]
    rfl (by decide)

/-- A request whose model string lies outside the enumerated domain. -/
def bogusModelReq : GeminiExecuteParams :=
  ⟨some ['h', 'i'], some ['b', 'o', 'g', 'u', 's'], none, none, none,
    none, none, none⟩

/-- Claim C3 (evidence of the code's behaviour): the handler performs no
runtime validation of the enumerated fields — a request whose model is
outside the enumerated domain (hence not a valid request) is not
rejected; the command is built and the out-of-domain token reaches the
rendered parts verbatim. -/
theorem enum_not_validated :
    validReq bogusModelReq = false ∧
      handleRequest bogusModelReq = Except.ok (buildCommand bogusModelReq) ∧
      (mFlagTok ++ ['b', 'o', 'g', 'u', 's']) ∈ buildParts bogusModelReq :=
  ⟨by decide, rfl, by decide⟩

/-- Trailing-whitespace trimming, exactly as the specification sentence
for normal termination words it. -/
def trimTrailing (s : List Char) : List Char :=
  (s.reverse.dropWhile isWS).reverse

/-- Leading-whitespace trimming. -/
def trimLeading (s : List Char) : List Char :=
  s.dropWhile isWS

/-- Does `s` contain `pat` as a contiguous substring (JavaScript
`String.prototype.includes`)? -/
def containsSub (s pat : List Char) : Bool :=
  startsWith s pat ||
    match s with
    | [] => false
    | _ :: rest => containsSub rest pat

/-- JavaScript `a || b` on an optional string: an absent or empty `a`
falls through to `b`. -/
def jsOr (a : Option (List Char)) (b : List Char) : List Char :=
  match a with
  | some s => if s.isEmpty then b else s
  | none => b

/-- Outcome of running the built command as a child process: normal
termination with captured stdout, or abnormal termination (non-zero
exit, timeout, buffer overflow or spawn failure) carrying the captured
stderr and the process-level error message, either of which may be
absent. -/
inductive ExecOutcome where
  | exited0 (stdout : List Char)
  | failed (stderr : Option (List Char)) (message : Option (List Char))

/-- The result returned to the protocol layer: a text content and the
error flag. -/
structure ToolResult where
  text : List Char
  isError : Bool

/-- The placeholder substituted for empty output. -/
def noOutputTok : List Char := "Done (no output)".data

/-- The fixed unknown-error fallback text. -/
def unknownTok : List Char := "Unknown error".data

/-- Prefix of every failure text. -/
def errPrefTok : List Char := "Error: ".data

/-- The missing-binary indicator searched for in the diagnostic text. -/
def cmdNotFoundTok : List Char := "command not found".data

/-- The authentication indicator searched for in the diagnostic text. -/
def authTok : List Char := "auth".data

/-- The installation remediation hint. -/
def installHintTok : List Char :=
  "\n\nInstall Gemini CLI: npm install -g @google/gemini-cli".data

/-- The re-authentication remediation hint. -/
def authHintTok : List Char := "\n\nTry: gemini auth login".data

/-- Result construction from the child-process outcome, src/index.ts
lines 179-206: on exit 0 the trimmed stdout (or the no-output
placeholder); on failure the structured error text built from
`err.stderr || err.message || "Unknown error"` and the hint cascade. -/
def handleOutcome : ExecOutcome → ToolResult
  | ExecOutcome.exited0 stdout =>
    let t := trimJS stdout
    ⟨if t.isEmpty then noOutputTok else t, false⟩
  | ExecOutcome.failed stderr message =>
    let msg := jsOr stderr (jsOr message unknownTok)
    let hint :=
      if containsSub msg cmdNotFoundTok then installHintTok
      else if containsSub msg authTok then authHintTok
      else []
    ⟨errPrefTok ++ msg ++ hint, true⟩

/-- The stdout of the specification's concrete success example. -/
def exampleStdout : List Char := "  done  \n".data

/-- Claim C8 counterexample: the claim says the Success text is the
stdout with (only) trailing whitespace trimmed, and also that stdout
`"  done  \n"` yields exactly `"done"`; the code trims both ends, so at
this very input the produced text differs from the trailing-trimmed
stdout. -/
theorem success_trim_cex :
    (handleOutcome (ExecOutcome.exited0 exampleStdout)).text =
        ['d', 'o', 'n', 'e'] ∧
      (trimTrailing exampleStdout == ['d', 'o', 'n', 'e']) = false := by
  decide

/-- Claim C8 (amended: leading and trailing whitespace trimmed): a
child process exiting 0 yields a non-error result whose text is the
stdout trimmed at both ends, with the fixed placeholder substituted
when the trimmed output is empty — never the empty string; in
particular stdout `"  done  \n"` yields exactly `"done"`. -/
theorem success_result_text :
    (∀ stdout,
      (handleOutcome (ExecOutcome.exited0 stdout)).isError = false ∧
        (handleOutcome (ExecOutcome.exited0 stdout)).text =
          (if (trimTrailing (trimLeading stdout)).isEmpty then noOutputTok
            else trimTrailing (trimLeading stdout)) ∧
        (handleOutcome (ExecOutcome.exited0 stdout)).text.isEmpty = false) ∧
      (handleOutcome (ExecOutcome.exited0 exampleStdout)).text =
        ['d', 'o', 'n', 'e'] := by
  constructor
  · intro stdout
    have ht : trimTrailing (trimLeading stdout) = trimJS stdout := rfl
    refine ⟨rfl, by rw [ht]; rfl, ?_⟩
    cases he : (trimJS stdout).isEmpty <;> simp [handleOutcome, he]
    decide
  · decide

/-- Error-message selection fallback, from the specification: the
process-level error description when present and non-empty, else the
fixed unknown-error text. -/
def specFallback (message : Option (List Char)) : List Char :=
  match message with
  | some t => if t.isEmpty then unknownTok else t
  | none => unknownTok

/-- Diagnostic message selection as specification section 4.3 words it:
prefer the captured non-empty standard error, otherwise fall back to
the process-level description. -/
def specMsg (stderr message : Option (List Char)) : List Char :=
  match stderr with
  | some s => if s.isEmpty then specFallback message else s
  | none => specFallback message

/-- Hint classification cascade per specification section 4.3: a
missing-binary indicator attaches the installation hint; failing that,
an authentication indicator attaches the re-authentication hint;
otherwise no hint. -/
def specHint (msg : List Char) : List Char :=
  if containsSub msg cmdNotFoundTok then installHintTok
  else if containsSub msg authTok then authHintTok
  else []

/-- Claim C9: every abnormal termination resolves to an error-flagged
structured result whose message prefers the captured standard error
and otherwise falls back to a generic process-level description, with
the installation hint attached on the missing-binary indicator, the
re-authentication hint on the authentication indicator, and no hint
otherwise. -/
theorem failure_classified (stderr message : Option (List Char)) :
    (handleOutcome (ExecOutcome.failed stderr message)).isError = true ∧
      (handleOutcome (ExecOutcome.failed stderr message)).text =
        errPrefTok ++ specMsg stderr message ++
          specHint (specMsg stderr message) := by
  have hmsg : jsOr stderr (jsOr message unknownTok) = specMsg stderr message := by
    rcases stderr with _ | s <;> rcases message with _ | t <;>
      simp [jsOr, specMsg, specFallback]
  refine ⟨rfl, ?_⟩
  simp only [handleOutcome, hmsg, specHint]

end GeminiBridge
